import Mathlib

/-!
Shallow embedding of `src/Sources/CPty/pty_bridge.c` (KoboldOS PTY bridge).

The C file has three entry points guarded by one process-wide mutex
`pty_mutex`:

* `kobold_forkpty(child_pid, shell_path, rows, cols)` — builds a `winsize`
  from the (int → unsigned short) casts of `rows`/`cols`, locks, calls
  `forkpty`, and then splits: on fork failure it unlocks and returns `-1`;
  in the parent it stores the pid and unlocks and returns the master fd;
  in the child it unlocks, sets five environment variables, builds the
  login-shell `argv[0]` with `snprintf(login_arg, 256, "-%s", shell_name)`
  where `shell_name = strrchr(shell_path, '/') + 1` (or the whole path when
  there is no `'/'`), resets seven signal dispositions to `SIG_DFL`, and
  calls `execl(shell_path, login_arg, NULL)`; if the exec fails it calls
  `_exit(127)`.
* `kobold_pty_resize(master_fd, rows, cols)` — builds the same `winsize`,
  locks, issues one `ioctl(master_fd, TIOCSWINSZ, &ws)`, unlocks, and
  returns `0` on success and `-1` when the ioctl fails.
* `kobold_init_signal_handlers()` — registers `sigchld_handler` for
  `SIGCHLD` with flags `SA_RESTART | SA_NOCLDSTOP` and an empty mask;
  `sigchld_handler` reaps every terminated child with a
  `waitpid(-1, NULL, WNOHANG)` loop.

The embedding makes the OS-dependent outcomes (the result of `forkpty`,
whether `execl` succeeds, whether the `ioctl` succeeds) explicit oracle
inputs, and records every externally visible step of an invocation in a
trace of `Action`s, so each claim becomes a statement about the trace and
the outcome produced for a given oracle.
-/

namespace PtyBridge

/-- The seven signals whose dispositions the child branch resets, plus
none others: the C file mentions exactly these. -/
inductive Sig where
  | sigint
  | sigquit
  | sigtstp
  | sigpipe
  | sigchld
  | sighup
  | sigterm
deriving DecidableEq, Repr

/-- The kernel window-size structure `struct winsize`; all four fields are
`unsigned short`, held here as `Nat` values below `2 ^ 16` by construction
(`memset` zeroes `ws_xpixel`/`ws_ypixel`, which are never assigned). -/
structure Winsize where
  ws_row : Nat
  ws_col : Nat
  ws_xpixel : Nat
  ws_ypixel : Nat
deriving DecidableEq, Repr

/-- The C cast `(unsigned short)x` of an `int` value: the representative of
`x` modulo `2 ^ 16` in `[0, 65536)`. -/
def toUShort (x : Int) : Nat := (x % 65536).toNat

/-- The `winsize` both functions build: `memset` to zero, then
`ws.ws_row = (unsigned short)rows; ws.ws_col = (unsigned short)cols;`. -/
def mkWinsize (rows cols : Int) : Winsize :=
  { ws_row := toUShort rows, ws_col := toUShort cols, ws_xpixel := 0, ws_ypixel := 0 }

/-- Oracle for the outcome of the `forkpty` system call: it fails, or the
caller continues as the parent with a master descriptor and the child's
pid, or the caller continues as the child. -/
inductive ForkResult where
  | fail
  | parent (masterFd : Int) (childPid : Int)
  | child
deriving DecidableEq, Repr

/-- OS postcondition on a `forkpty` outcome: when it succeeds, the master
descriptor is a valid (non-negative) descriptor and the child pid is
positive. Failure and the child continuation carry no data. -/
def forkOk : ForkResult → Prop
  | ForkResult.fail => True
  | ForkResult.parent fd pid => 0 ≤ fd ∧ 0 < pid
  | ForkResult.child => True

/-- Oracle for one `kobold_forkpty` invocation: the `forkpty` outcome and
whether the `execl` in the child branch succeeds. -/
structure SpawnOracle where
  fork : ForkResult
  execOk : Bool
deriving DecidableEq, Repr

/-- The identifier of the one static mutex `pty_mutex` in the C file; both
entry points lock this same mutex. -/
def ptyMutex : Nat := 0

/-- Externally visible steps of an invocation, in program order. -/
inductive Action where
  | lock (m : Nat)
  | unlock (m : Nat)
  | forkptyCall (ws : Winsize)
  | storePid (pid : Int)
  | setenvA (name value : String)
  | sigDefault (s : Sig)
  | execCall (path : List Char) (argv : List (List Char))
  | ioctlSetWinsize (fd : Int) (ws : Winsize)
deriving DecidableEq, Repr

/-- How one `kobold_forkpty` invocation ends for the code in this file:
the function returns `value` to the caller, having stored `stored` into
`*child_pid` (the parent side); or the process image was replaced by the
shell (successful `execl`); or the process called `_exit status`. -/
inductive SpawnOutcome where
  | ret (value : Int) (stored : Option Int)
  | image (path : List Char)
  | exited (status : Nat)
deriving DecidableEq, Repr

/-- Model of `strrchr(s, '/')` seen as the suffix after the last `'/'`:
`none` when `s` has no `'/'`, otherwise `some` of the characters strictly
after the last `'/'`. -/
def strrchrSuffix : List Char → Option (List Char)
  | [] => none
  | c :: rest =>
    match strrchrSuffix rest with
    | some suf => some suf
    | none => if c = '/' then some rest else none

/-- The `shell_name` pointer of the child branch: the suffix after the
last `'/'` when `strrchr` finds one, otherwise the whole `shell_path`. -/
def shellNameOf (p : List Char) : List Char :=
  match strrchrSuffix p with
  | some suf => suf
  | none => p

/-- `snprintf(buf, size, "-%s", s)`: a dash followed by `s`, truncated to
at most `size - 1` characters (one byte is reserved for the terminator). -/
def snprintfDash (size : Nat) (s : List Char) : List Char :=
  ('-' :: s).take (size - 1)

/-- The `login_arg` buffer the child passes as `argv[0]`:
`snprintf(login_arg, sizeof(login_arg), "-%s", shell_name)` with
`char login_arg[256]`. -/
def loginArg (p : List Char) : List Char :=
  snprintfDash 256 (shellNameOf p)

/-- The child branch of `kobold_forkpty` after the fork, in program order:
unlock the mutex, set the five environment variables (`COLUMNS`/`LINES`
are the `snprintf("%d")` renderings of the requested size, which a 32-byte
buffer never truncates for an `int`), reset the seven signal dispositions
to `SIG_DFL`, and attempt the `execl` with the single login argument. -/
def childActions (shellPath : List Char) (rows cols : Int) : List Action :=
  [Action.unlock ptyMutex,
   Action.setenvA "TERM" "xterm-256color",
   Action.setenvA "LANG" "de_DE.UTF-8",
   Action.setenvA "COLORTERM" "truecolor",
   Action.setenvA "COLUMNS" (toString cols),
   Action.setenvA "LINES" (toString rows),
   Action.sigDefault Sig.sigint,
   Action.sigDefault Sig.sigquit,
   Action.sigDefault Sig.sigtstp,
   Action.sigDefault Sig.sigpipe,
   Action.sigDefault Sig.sigchld,
   Action.sigDefault Sig.sighup,
   Action.sigDefault Sig.sigterm,
   Action.execCall shellPath [loginArg shellPath]]

/-- `kobold_forkpty`: build the `winsize`, lock, `forkpty`, then split on
the fork outcome exactly as the C control flow does. -/
def kobold_forkpty (shellPath : List Char) (rows cols : Int) (orc : SpawnOracle) :
    List Action × SpawnOutcome :=
  let ws := mkWinsize rows cols
  match orc.fork with
  | ForkResult.fail =>
    ([Action.lock ptyMutex, Action.forkptyCall ws, Action.unlock ptyMutex],
     SpawnOutcome.ret (-1) none)
  | ForkResult.parent fd pid =>
    ([Action.lock ptyMutex, Action.forkptyCall ws, Action.storePid pid,
      Action.unlock ptyMutex],
     SpawnOutcome.ret fd (some pid))
  | ForkResult.child =>
    (Action.lock ptyMutex :: Action.forkptyCall ws :: childActions shellPath rows cols,
     if orc.execOk then SpawnOutcome.image shellPath else SpawnOutcome.exited 127)

/-- Oracle for one `kobold_pty_resize` invocation: whether the
`ioctl(master_fd, TIOCSWINSZ, &ws)` succeeds. -/
structure ResizeOracle where
  ioctlOk : Bool
deriving DecidableEq, Repr

/-- `kobold_pty_resize`: build the `winsize`, lock, issue the single
`TIOCSWINSZ` ioctl, unlock, and return `0` on success and `-1` when the
ioctl failed. -/
def kobold_pty_resize (masterFd : Int) (rows cols : Int) (orc : ResizeOracle) :
    List Action × Int :=
  let ws := mkWinsize rows cols
  ([Action.lock ptyMutex, Action.ioctlSetWinsize masterFd ws, Action.unlock ptyMutex],
   if orc.ioctlOk then 0 else -1)

/-- A signal handler the process can have installed for a signal. -/
inductive Handler where
  | dfl
  | sigchldReaper
deriving DecidableEq, Repr

/-- The disposition `sigaction` installs for a signal: the handler, the
`SA_RESTART` and `SA_NOCLDSTOP` flag bits, and the blocked-signal mask. -/
structure Disposition where
  handler : Handler
  saRestart : Bool
  saNoCldStop : Bool
  mask : List Sig
deriving DecidableEq, Repr

/-- `sigchld_handler`: `while (waitpid(-1, NULL, WNOHANG) > 0);` — reaps
every terminated child that is waiting to be collected, discarding the
statuses, and leaves none behind. -/
def sigchld_handler (zombies : List Int) : List Int :=
  match zombies with
  | [] => []
  | _ :: rest => sigchld_handler rest

/-- `kobold_init_signal_handlers`: registers `sigchld_handler` for
`SIGCHLD` with `sa_flags = SA_RESTART | SA_NOCLDSTOP` and an empty mask,
leaving every other signal's disposition unchanged. -/
def kobold_init_signal_handlers (dispositions : Sig → Disposition) : Sig → Disposition :=
  fun s =>
    if s = Sig.sigchld then
      { handler := Handler.sigchldReaper, saRestart := true,
        saNoCldStop := true, mask := [] }
    else dispositions s

/-! Trace observers used to state the claims. -/

/-- The `setenv` calls of a trace, in order. -/
def envsOf (t : List Action) : List (String × String) :=
  t.filterMap fun a =>
    match a with
    | Action.setenvA n v => some (n, v)
    | _ => none

/-- The signals a trace resets to default handling, in order. -/
def sigsOf (t : List Action) : List Sig :=
  t.filterMap fun a =>
    match a with
    | Action.sigDefault s => some s
    | _ => none

/-- The first exec attempt of a trace: the path and the argv passed. -/
def execOf (t : List Action) : Option (List Char × List (List Char)) :=
  (t.filterMap fun a =>
    match a with
    | Action.execCall p args => some (p, args)
    | _ => none).head?

/-- The pids a trace stores into the caller's `*child_pid`, in order. -/
def storedPids (t : List Action) : List Int :=
  t.filterMap fun a =>
    match a with
    | Action.storePid pid => some pid
    | _ => none

/-- The mutex events of a trace: `(true, m)` for acquiring mutex `m`,
`(false, m)` for releasing it, in order. -/
def lockEvents (t : List Action) : List (Bool × Nat) :=
  t.filterMap fun a =>
    match a with
    | Action.lock m => some (true, m)
    | Action.unlock m => some (false, m)
    | _ => none

/-- The window size handed to the `forkpty` call of a trace, if any. -/
def forkWs (t : List Action) : Option Winsize :=
  (t.filterMap fun a =>
    match a with
    | Action.forkptyCall ws => some ws
    | _ => none).head?

/-- The `TIOCSWINSZ` requests of a trace: target descriptor and size. -/
def ioctlWs (t : List Action) : List (Int × Winsize) :=
  t.filterMap fun a =>
    match a with
    | Action.ioctlSetWinsize fd ws => some (fd, ws)
    | _ => none

/-- The spec's description of the login-shell name, stated independently
of `strrchr`: the longest suffix of the path that contains no `'/'`
(the last path segment). Used to check the code's construction against
the spec's words. -/
def afterLastSlash (p : List Char) : List Char :=
  (p.reverse.takeWhile fun c => c ≠ '/').reverse

example : loginArg ('/' :: ['b', 'i', 'n', '/', 'z', 's', 'h']) = ['-', 'z', 's', 'h'] := by
  decide

example : afterLastSlash ['/', 'b', 'i', 'n', '/', 'z', 's', 'h'] = ['z', 's', 'h'] := by
  decide

/-- A path without `'/'` makes `strrchr` return `NULL`. -/
theorem strrchrSuffix_eq_none (p : List Char) (h : '/' ∉ p) :
    strrchrSuffix p = none := by
  induction p with
  | nil => rfl
  | cons c rest ih =>
    have hc : ¬c = '/' := fun hc => h (hc ▸ List.mem_cons_self c rest)
    have hr : '/' ∉ rest := fun hr => h (List.mem_cons_of_mem c hr)
    simp [strrchrSuffix, ih hr, hc]

/-- Appending one character to the path either resets the suffix (the
character is a `'/'`) or extends it. -/
theorem strrchrSuffix_snoc (q : List Char) (c : Char) :
    strrchrSuffix (q ++ [c]) =
      if c = '/' then some [] else (strrchrSuffix q).map (fun s => s ++ [c]) := by
  induction q with
  | nil => by_cases hc : c = '/' <;> simp [strrchrSuffix, hc]
  | cons a q ih =>
    simp only [List.cons_append, strrchrSuffix, List.append_eq]
    rw [ih]
    by_cases hc : c = '/'
    · simp [hc]
    · simp only [hc, if_neg, not_false_iff]
      cases hq : strrchrSuffix q with
      | some s => simp
      | none => by_cases ha : a = '/' <;> simp [ha]

/-- The spec-side last segment, on a path extended by one character. -/
theorem afterLastSlash_snoc (q : List Char) (c : Char) :
    afterLastSlash (q ++ [c]) =
      if c = '/' then [] else afterLastSlash q ++ [c] := by
  unfold afterLastSlash
  by_cases hc : c = '/' <;>
    simp [List.reverse_append, List.takeWhile_cons, hc]

/-- The child branch's `strrchr`-based shell name agrees with the spec's
description: it is the last path segment of `shell_path` (the whole path
when there is no separator). -/
theorem shellNameOf_eq_afterLastSlash (p : List Char) :
    shellNameOf p = afterLastSlash p := by
  induction p using List.reverseRecOn with
  | nil => rfl
  | append_singleton q c ih =>
    by_cases hc : c = '/'
    · simp [shellNameOf, strrchrSuffix_snoc, afterLastSlash_snoc, hc]
    · simp only [shellNameOf, strrchrSuffix_snoc, afterLastSlash_snoc, hc, if_neg,
        not_false_iff]
      cases hq : strrchrSuffix q with
      | some s =>
        rw [← ih]
        simp [shellNameOf, hq, Option.map]
      | none =>
        rw [← ih]
        simp [shellNameOf, hq, Option.map]

/-- C1: for every call of `kobold_forkpty` with positive rows and cols,
under the OS postcondition on `forkpty` (`forkOk`), the parent-side call
either returns a non-negative master descriptor having stored a positive
child pid into `*child_pid`, or returns `-1` having stored nothing. -/
theorem spawn_parent_returns_fd_or_fails (p : List Char) (rows cols : Int)
    (orc : SpawnOracle) (_hrows : 0 < rows) (_hcols : 0 < cols)
    (hos : forkOk orc.fork) (hpar : orc.fork ≠ ForkResult.child) :
    (∃ fd pid, (kobold_forkpty p rows cols orc).2 = SpawnOutcome.ret fd (some pid) ∧
        0 ≤ fd ∧ 0 < pid) ∨
      ((kobold_forkpty p rows cols orc).2 = SpawnOutcome.ret (-1) none ∧
        storedPids (kobold_forkpty p rows cols orc).1 = []) := by
  obtain ⟨fork, ex⟩ := orc
  cases fork with
  | fail => exact Or.inr ⟨rfl, rfl⟩
  | parent fd pid => exact Or.inl ⟨fd, pid, rfl, hos.1, hos.2⟩
  | child => exact absurd rfl hpar

theorem spawn_parent_returns_fd_or_fails_witness :
    (∃ fd pid,
        (kobold_forkpty ['/', 'b', 'i', 'n', '/', 'z', 's', 'h'] 24 80
            ⟨ForkResult.parent 3 42, true⟩).2 = SpawnOutcome.ret fd (some pid) ∧
          0 ≤ fd ∧ 0 < pid) ∨
      ((kobold_forkpty ['/', 'b', 'i', 'n', '/', 'z', 's', 'h'] 24 80
            ⟨ForkResult.parent 3 42, true⟩).2 = SpawnOutcome.ret (-1) none ∧
        storedPids (kobold_forkpty ['/', 'b', 'i', 'n', '/', 'z', 's', 'h'] 24 80
            ⟨ForkResult.parent 3 42, true⟩).1 = []) :=
  spawn_parent_returns_fd_or_fails _ 24 80 ⟨ForkResult.parent 3 42, true⟩
    (by norm_num) (by norm_num)
    (show (0 : Int) ≤ 3 ∧ (0 : Int) < 42 by norm_num)
    (fun h => ForkResult.noConfusion h)

set_option maxRecDepth 8192 in
/-- C2, counterexample: for a slash-free `shell_path` of 300 characters
the claim fails — `snprintf(login_arg, 256, "-%s", shell_name)` truncates,
so `argv[0]` is not the dash followed by the whole last segment. -/
theorem spawn_login_arg_claim_cex :
    execOf (kobold_forkpty (List.replicate 300 'a') 24 80
        ⟨ForkResult.child, true⟩).1 ≠
      some (List.replicate 300 'a',
        ['-' :: afterLastSlash (List.replicate 300 'a')]) := by
  decide

/-- C2, amended: in the child branch the exec receives exactly one
argument, namely `'-'` followed by the last path segment of `shell_path`
(its suffix after the last `'/'`, or the whole path if it has none),
truncated to the 255 characters that fit the 256-byte `login_arg`
buffer. -/
theorem spawn_child_exec_login_arg (p : List Char) (rows cols : Int) (ex : Bool) :
    execOf (kobold_forkpty p rows cols ⟨ForkResult.child, ex⟩).1 =
      some (p, [('-' :: afterLastSlash p).take 255]) := by
  simp [kobold_forkpty, childActions, execOf, loginArg, snprintfDash,
    shellNameOf_eq_afterLastSlash]

/-- C3: when the fork put us in the child and the `execl` fails, the
invocation ends in `_exit(127)` and the exec attempt is the last action
performed — no further host-process step follows it. -/
theorem spawn_exec_failure_exits_127 (p : List Char) (rows cols : Int) :
    (kobold_forkpty p rows cols ⟨ForkResult.child, false⟩).2 =
        SpawnOutcome.exited 127 ∧
      (kobold_forkpty p rows cols ⟨ForkResult.child, false⟩).1.getLast? =
        some (Action.execCall p [loginArg p]) :=
  ⟨rfl, rfl⟩

/-- C4: the environment variables an invocation sets are exactly `TERM`,
`LANG`, `COLORTERM`, and `COLUMNS`/`LINES` holding the decimal renderings
of the requested cols and rows — in the child branch; the parent-side
branches (fork failure and parent continuation) set none, so the caller
never sees them. -/
theorem spawn_child_environment (p : List Char) (rows cols : Int) (orc : SpawnOracle) :
    envsOf (kobold_forkpty p rows cols orc).1 =
      (match orc.fork with
       | ForkResult.child =>
         [("TERM", "xterm-256color"), ("LANG", "de_DE.UTF-8"),
          ("COLORTERM", "truecolor"),
          ("COLUMNS", toString cols), ("LINES", toString rows)]
       | _ => []) := by
  obtain ⟨fork, ex⟩ := orc
  cases fork <;> simp [kobold_forkpty, childActions, envsOf]

/-- C5: the signal dispositions an invocation resets to default handling
are exactly the seven signals SIGINT, SIGQUIT, SIGTSTP, SIGPIPE, SIGCHLD,
SIGHUP, SIGTERM, in the child branch, and none elsewhere. -/
theorem spawn_child_signal_resets (p : List Char) (rows cols : Int) (orc : SpawnOracle) :
    sigsOf (kobold_forkpty p rows cols orc).1 =
      (match orc.fork with
       | ForkResult.child =>
         [Sig.sigint, Sig.sigquit, Sig.sigtstp, Sig.sigpipe,
          Sig.sigchld, Sig.sighup, Sig.sigterm]
       | _ => []) := by
  obtain ⟨fork, ex⟩ := orc
  cases fork <;> simp [kobold_forkpty, childActions, sigsOf]

/-- C6: `kobold_pty_resize` returns `-1` exactly when the single
`TIOCSWINSZ` ioctl fails, and its whole trace is lock, one ioctl carrying
both new dimensions at once, unlock — there is no path on which only one
of the two dimensions is applied. -/
theorem resize_fails_iff_ioctl_fails (fd rows cols : Int) (orc : ResizeOracle) :
    ((kobold_pty_resize fd rows cols orc).2 = -1 ↔ orc.ioctlOk = false) ∧
      (kobold_pty_resize fd rows cols orc).1 =
        [Action.lock ptyMutex,
         Action.ioctlSetWinsize fd (mkWinsize rows cols),
         Action.unlock ptyMutex] := by
  obtain ⟨ok⟩ := orc
  refine ⟨?_, rfl⟩
  cases ok <;> simp [kobold_pty_resize]

theorem resize_fails_iff_ioctl_fails_witness :
    ((kobold_pty_resize 3 25 81 ⟨false⟩).2 = -1 ↔ (⟨false⟩ : ResizeOracle).ioctlOk = false) ∧
      (kobold_pty_resize 3 25 81 ⟨false⟩).1 =
        [Action.lock ptyMutex,
         Action.ioctlSetWinsize 3 (mkWinsize 25 81),
         Action.unlock ptyMutex] :=
  resize_fails_iff_ioctl_fails 3 25 81 ⟨false⟩

/-- C7: both entry points guard their work with the one mutex `pty_mutex`:
on every path of both operations the trace acquires that mutex exactly
once and releases it exactly once, in that order (so the operations are
serialized against each other), and in the post-fork child branch the
release is the first action after the fork, before any environment,
signal, or exec step. -/
theorem pty_lock_discipline (p : List Char) (rows cols : Int) (orc : SpawnOracle)
    (fd rows2 cols2 : Int) (orc2 : ResizeOracle) :
    lockEvents (kobold_forkpty p rows cols orc).1 =
        [(true, ptyMutex), (false, ptyMutex)] ∧
      lockEvents (kobold_pty_resize fd rows2 cols2 orc2).1 =
        [(true, ptyMutex), (false, ptyMutex)] ∧
      (match orc.fork with
       | ForkResult.child =>
         (kobold_forkpty p rows cols orc).1.take 3 =
           [Action.lock ptyMutex, Action.forkptyCall (mkWinsize rows cols),
            Action.unlock ptyMutex]
       | _ => True) := by
  obtain ⟨fork, ex⟩ := orc
  cases fork <;> simp [kobold_forkpty, kobold_pty_resize, childActions, lockEvents]

/-- C8: `kobold_init_signal_handlers` is idempotent — running it twice is
the same state transformation as running it once — and it leaves SIGCHLD
carrying the reaping handler with `SA_RESTART` and `SA_NOCLDSTOP` set. -/
theorem init_signal_handlers_idempotent (d : Sig → Disposition) :
    kobold_init_signal_handlers (kobold_init_signal_handlers d) =
        kobold_init_signal_handlers d ∧
      kobold_init_signal_handlers d Sig.sigchld =
        { handler := Handler.sigchldReaper, saRestart := true,
          saNoCldStop := true, mask := [] } := by
  refine ⟨funext fun s => ?_, rfl⟩
  by_cases hs : s = Sig.sigchld <;> simp [kobold_init_signal_handlers, hs]

/-- C9: for every rows and cols (zero, negative, or above 65535 included)
both operations hand the kernel the values reduced modulo `2 ^ 16`, and
neither operation validates or rejects out-of-range sizes — the outcome
of each operation is independent of rows and cols. -/
theorem winsize_cast_mod_two_pow_16 (p : List Char) (rows cols rows2 cols2 : Int)
    (orc : SpawnOracle) (fd : Int) (orc2 : ResizeOracle) :
    forkWs (kobold_forkpty p rows cols orc).1 =
        some { ws_row := (rows % 2 ^ 16).toNat, ws_col := (cols % 2 ^ 16).toNat,
               ws_xpixel := 0, ws_ypixel := 0 } ∧
      ioctlWs (kobold_pty_resize fd rows cols orc2).1 =
        [(fd, { ws_row := (rows % 2 ^ 16).toNat, ws_col := (cols % 2 ^ 16).toNat,
                ws_xpixel := 0, ws_ypixel := 0 })] ∧
      (kobold_forkpty p rows cols orc).2 = (kobold_forkpty p rows2 cols2 orc).2 ∧
      (kobold_pty_resize fd rows cols orc2).2 =
        (kobold_pty_resize fd rows2 cols2 orc2).2 := by
  obtain ⟨fork, ex⟩ := orc
  refine ⟨?_, ?_, ?_, rfl⟩
  · cases fork <;>
      simp [kobold_forkpty, childActions, forkWs, mkWinsize, toUShort]
  · simp [kobold_pty_resize, ioctlWs, mkWinsize, toUShort]
  · cases fork <;> rfl

set_option maxRecDepth 8192 in
/-- C10, counterexample: a slash-free `shell_path` of 300 characters is
not passed through whole — the 256-byte `login_arg` buffer truncates it,
so `argv[0]` is not `'-'` followed by all of `shell_path`. -/
theorem spawn_no_slash_claim_cex :
    '/' ∉ List.replicate 300 'b' ∧
      execOf (kobold_forkpty (List.replicate 300 'b') 24 80
          ⟨ForkResult.child, true⟩).1 ≠
        some (List.replicate 300 'b', ['-' :: List.replicate 300 'b']) := by
  constructor
  · decide
  · decide

/-- C10, amended: when `shell_path` contains no `'/'`, the child branch
uses the entire path as the shell name, so `argv[0]` is `'-'` followed by
the whole of `shell_path`, truncated to the 255 characters that fit the
256-byte `login_arg` buffer (never a failure or an empty name). -/
theorem spawn_no_slash_whole_name (p : List Char) (rows cols : Int) (ex : Bool)
    (h : '/' ∉ p) :
    execOf (kobold_forkpty p rows cols ⟨ForkResult.child, ex⟩).1 =
      some (p, [('-' :: p).take 255]) := by
  simp [kobold_forkpty, childActions, execOf, loginArg, snprintfDash, shellNameOf,
    strrchrSuffix_eq_none p h]

theorem spawn_no_slash_whole_name_witness :
    execOf (kobold_forkpty ['z', 's', 'h'] 24 80 ⟨ForkResult.child, true⟩).1 =
      some (['z', 's', 'h'], [('-' :: ['z', 's', 'h']).take 255]) :=
  spawn_no_slash_whole_name ['z', 's', 'h'] 24 80 true (by decide)

end PtyBridge
